import Mathlib

/-!
# Verification of the `rust-bplus` B+ tree core

Shallow embedding of `src/src/lib.rs` (the library copy of the code; `src/src/main.rs`
is an earlier duplicate of the same structures with a smaller `insert`).

Modelling decisions, each justified against the source:

* `BPlusNode` merges the source's `BPlusLeaf` / `BPlusInterior` structs and the
  `BPlusNode` enum into one inductive, exactly as the enum wraps them.  The
  `parent : Option<Weak<BPlusInterior>>` back-references are non-owning navigation
  pointers; in the source they are only ever `None` on every node the public API can
  reach (the root leaf is created with `parent: None`, and `leaf.parent.clone()`
  therefore clones `None`), so they carry no information and are dropped from the
  functional state.
* `Rc` sharing is modelled by a ghost counter `rootOtherRefs` on the tree: the number
  of `Rc` or `Weak` pointers to the root allocation held outside the tree's own
  `root` field.  `Rc::get_mut` in the source returns `Some` exactly when this count
  is zero; the `.expect("Someone else is borrowing our root")` call at line 71 is the
  `rootBorrowed` panic site below.  `BPlusTree::new` allocates nothing (count 0) and
  `insert` never clones the root `Rc` nor calls `Rc::downgrade` (the `left`, `right`
  and `inner` nodes at lines 104-111 are fresh allocations that go out of scope), so
  the counter is preserved at zero along every public-API execution.
* Rust `Vec<T>` becomes `List T`; `push` is append of a singleton.
* The two panic sites of `insert` (`panic!` in the `Interior` arm, line 77, and the
  failed `expect` on `Rc::get_mut`, line 71) become the `Except` error values
  `PanicSite.interiorTodo` and `PanicSite.rootBorrowed`.
-/

/-- The node type of the tree: `enum BPlusNode { Leaf(BPlusLeaf), Interior(BPlusInterior) }`
with the two structs inlined.  A `Leaf` holds parallel `keys`/`values` vectors
(lib.rs lines 17-21); an `Interior` holds separator `keys` and `children`
(lines 30-34). -/
inductive BPlusNode (K V : Type) where
  | Leaf : List K → List V → BPlusNode K V
  | Interior : List K → List (BPlusNode K V) → BPlusNode K V

/-- The externally facing tree struct (lib.rs lines 50-52): an optional root node.
`rootOtherRefs` is ghost state for the `Rc` reference count of the root allocation:
how many `Rc`/`Weak` pointers to it exist besides the tree's own `root` field.
`Rc::get_mut` on the root succeeds exactly when it is zero. -/
structure BPlusTree (K V : Type) where
  root : Option (BPlusNode K V)
  rootOtherRefs : Nat

/-- `BPlusTree::new` (lib.rs lines 56-58): `BPlusTree { root: None }`.  No allocation
exists, so no outside pointers to a root allocation exist either. -/
def BPlusTree.new {K V : Type} : BPlusTree K V :=
  { root := none, rootOtherRefs := 0 }

/-- The capacity literal of the source: `insert` triggers its split computation when
`leaf.keys.len() >= 4` (lib.rs line 80).  The spec calls this `maxKeys = 4`. -/
def maxKeys : Nat := 4

/-- The split computation of `insert` (lib.rs lines 82-111), performed when the leaf
already holds at least `maxKeys` keys.  `left` receives the entries at indices
`[0, len/2)` and `right` the entries at `[len/2, len)` of the *pre-insertion* leaf
(lines 94-102; the loops index `keys` and `values` by the same bounds, and every
reachable leaf has equally long vectors).  `inner` is an Interior node with an
*empty* key vector and children `[left, right]` (lines 107-111; its `parent` is
`leaf.parent.clone()`, which is always `None`, see the header).  The source binds
the result to local variables and never uses them: the bindings are dead code. -/
def deadSplit {K V : Type} (keys : List K) (values : List V) :
    BPlusNode K V × BPlusNode K V × BPlusNode K V :=
  let left := BPlusNode.Leaf (keys.take (keys.length / 2)) (values.take (keys.length / 2))
  let right := BPlusNode.Leaf (keys.drop (keys.length / 2)) (values.drop (keys.length / 2))
  let inner := BPlusNode.Interior [] [left, right]
  (left, right, inner)

/-- The two panic sites of `BPlusTree::insert` (lib.rs lines 71 and 77). -/
inductive PanicSite where
  /-- `panic!("This also can't happen yet")` in the `Interior` match arm (line 77). -/
  | interiorTodo : PanicSite
  /-- `.expect("Someone else is borrowing our root")` when `Rc::get_mut` fails
  because another `Rc`/`Weak` pointer to the root allocation exists (line 71). -/
  | rootBorrowed : PanicSite

/-- `BPlusTree::insert` (lib.rs lines 60-119), step by step:
1. lines 62-68: if `root` is `None`, allocate a fresh root leaf with empty vectors
   (a fresh allocation has no outside pointers, count 0);
2. lines 70-71: `Rc::get_mut` on the root, panicking if the allocation is shared;
3. line 77: the `Interior` arm panics (interior nodes are unimplemented);
4. lines 80-113: in the `Leaf` arm, if `leaf.keys.len() >= 4` the split computation
   `deadSplit` runs and its result is discarded (dead local bindings);
5. lines 115-116: the key and value are pushed onto the *end* of the leaf's vectors
   (no comparison with existing keys is made). -/
def BPlusTree.insert {K V : Type} (t : BPlusTree K V) (key : K) (value : V) :
    Except PanicSite (BPlusTree K V) :=
  let rootNode : BPlusNode K V :=
    match t.root with
    | none => BPlusNode.Leaf [] []
    | some r => r
  let otherRefs : Nat :=
    match t.root with
    | none => 0
    | some _ => t.rootOtherRefs
  if otherRefs = 0 then
    match rootNode with
    | BPlusNode.Interior _ _ => Except.error PanicSite.interiorTodo
    | BPlusNode.Leaf keys values =>
        let _inner := if maxKeys ≤ keys.length then some (deadSplit keys values) else none
        Except.ok { root := some (BPlusNode.Leaf (keys ++ [key]) (values ++ [value])),
                    rootOtherRefs := otherRefs }
  else
    Except.error PanicSite.rootBorrowed

/-- Runs a sequence of `insert` calls left to right, propagating a panic. -/
def insertAll {K V : Type} (t : BPlusTree K V) : List (K × V) → Except PanicSite (BPlusTree K V)
  | [] => Except.ok t
  | (k, v) :: rest => (t.insert k v).bind (fun t2 => insertAll t2 rest)

/-- Keys of the root node ([] for an empty tree); observation helper. -/
def rootKeys {K V : Type} (t : BPlusTree K V) : List K :=
  match t.root with
  | none => []
  | some (BPlusNode.Leaf ks _) => ks
  | some (BPlusNode.Interior ks _) => ks

/-- Values of the root node ([] for an empty tree or an interior root);
observation helper. -/
def rootValues {K V : Type} (t : BPlusTree K V) : List V :=
  match t.root with
  | none => []
  | some (BPlusNode.Leaf _ vs) => vs
  | some (BPlusNode.Interior _ _) => []

/-- Whether the root node is an `Interior` node; observation helper. -/
def rootIsInterior {K V : Type} (t : BPlusTree K V) : Bool :=
  match t.root with
  | some (BPlusNode.Interior _ _) => true
  | _ => false

/-- Modelled from the spec: the leaf scan of Lookup, section 4.4 — "scan (or
binary-search) its keys for an exact match; return the paired value, or not found
if absent".  No `get` exists anywhere in the repository's source.  The scan walks
the parallel vectors left to right and returns the value paired with the first
exact key match. -/
def leafScan {K V : Type} [DecidableEq K] (key : K) : List K → List V → Option V
  | [], _ => none
  | _, [] => none
  | k :: ks, v :: vs => if k = key then some v else leafScan key ks vs

/-- Modelled from the spec: the child chosen during descent, section 4.2 step 2 —
"select the child index i such that keys[i-1] ≤ key < keys[i] (first key strictly
greater than the search key determines the boundary; ties route to the right
child)".  `findIdx` returns the index of the first separator strictly greater
than the search key, and the vector length (the rightmost child) when none is. -/
def childIndex {K : Type} [LinearOrder K] (keys : List K) (key : K) : Nat :=
  keys.findIdx (fun k => key < k)

/-- Modelled from the spec: Lookup over a node, section 4.4 — "descend exactly as in
insertion step 2, without mutation, until reaching a Leaf", then `leafScan`.  No
`get` exists anywhere in the repository's source.  A missing child (possible only
for a malformed interior node, which the spec's structural invariant excludes) is
a miss. -/
def BPlusNode.get {K V : Type} [LinearOrder K] (key : K) (n : BPlusNode K V) : Option V :=
  match n with
  | BPlusNode.Leaf ks vs => leafScan key ks vs
  | BPlusNode.Interior ks cs =>
      match h : cs[childIndex ks key]? with
      | none => none
      | some c => BPlusNode.get key c
termination_by sizeOf n
decreasing_by
  have hm : c ∈ cs := List.getElem?_mem h
  simp only [BPlusNode.Interior.sizeOf_spec]
  have := List.sizeOf_lt_of_mem hm
  omega

/-- Modelled from the spec: `Tree.get(key) -> Option<V>`, sections 4.4 and 6.  An
empty tree has nothing to find. -/
def BPlusTree.get {K V : Type} [LinearOrder K] (t : BPlusTree K V) (key : K) : Option V :=
  match t.root with
  | none => none
  | some n => BPlusNode.get key n

/-! ## Basic reduction lemmas -/

/-- Inserting into a tree whose root is a leaf (with no outside references) appends
the pair at the end of both vectors and keeps the ghost count at zero. -/
theorem insert_leafRoot {K V : Type} (ks : List K) (vs : List V) (k : K) (v : V) :
    (BPlusTree.mk (some (BPlusNode.Leaf ks vs)) 0).insert k v =
      Except.ok (BPlusTree.mk (some (BPlusNode.Leaf (ks ++ [k]) (vs ++ [v]))) 0) := rfl

/-- Inserting into the fresh tree materialises the root leaf and appends the pair. -/
theorem insert_new {K V : Type} (k : K) (v : V) :
    (BPlusTree.new).insert k v =
      Except.ok (BPlusTree.mk (some (BPlusNode.Leaf [k] [v])) 0) := rfl

/-- Running a whole insertion sequence from a leaf-rooted unshared tree never
panics and appends all keys and values in order. -/
theorem insertAll_leafRoot {K V : Type} (ks : List K) (vs : List V) (ps : List (K × V)) :
    insertAll (BPlusTree.mk (some (BPlusNode.Leaf ks vs)) 0) ps =
      Except.ok (BPlusTree.mk
        (some (BPlusNode.Leaf (ks ++ ps.map Prod.fst) (vs ++ ps.map Prod.snd))) 0) := by
  induction ps generalizing ks vs with
  | nil => simp [insertAll]
  | cons p rest ih =>
    obtain ⟨k, v⟩ := p
    show (((BPlusTree.mk (some (BPlusNode.Leaf ks vs)) 0).insert k v).bind
        (fun t2 => insertAll t2 rest)) = _
    rw [insert_leafRoot]
    show insertAll (BPlusTree.mk (some (BPlusNode.Leaf (ks ++ [k]) (vs ++ [v]))) 0) rest = _
    rw [ih]
    simp [List.append_assoc]

/-- Shape of every reachable tree: a sequence of inserts on a fresh tree never
panics, and it either leaves the tree empty (empty sequence) or produces a
root leaf holding exactly the inserted keys and values in insertion order,
with the ghost reference count still zero. -/
theorem reachable_cases {K V : Type} (ps : List (K × V)) (t : BPlusTree K V)
    (ht : insertAll BPlusTree.new ps = Except.ok t) :
    (ps = [] ∧ t = BPlusTree.new) ∨
    t = BPlusTree.mk (some (BPlusNode.Leaf (ps.map Prod.fst) (ps.map Prod.snd))) 0 := by
  cases ps with
  | nil =>
    left
    refine ⟨rfl, ?_⟩
    have h : Except.ok (ε := PanicSite) (BPlusTree.new (K := K) (V := V)) = Except.ok t := ht
    exact (Except.ok.inj h).symm
  | cons p rest =>
    right
    obtain ⟨k, v⟩ := p
    have h1 : insertAll BPlusTree.new ((k, v) :: rest) =
        Except.ok (BPlusTree.mk
          (some (BPlusNode.Leaf (((k, v) :: rest).map Prod.fst)
                                (((k, v) :: rest).map Prod.snd))) 0) := by
      show ((BPlusTree.new).insert k v).bind (fun t2 => insertAll t2 rest) = _
      rw [insert_new]
      show insertAll (BPlusTree.mk (some (BPlusNode.Leaf [k] [v])) 0) rest = _
      rw [insertAll_leafRoot]
      simp
    rw [h1] at ht
    exact (Except.ok.inj ht).symm

/-! ## Lemmas about the spec-modelled lookup -/

/-- The spec-modelled lookup on a leaf node is the parallel scan. -/
theorem get_leaf {K V : Type} [LinearOrder K] (key : K) (ks : List K) (vs : List V) :
    BPlusNode.get key (BPlusNode.Leaf ks vs) = leafScan key ks vs := by
  rw [BPlusNode.get]

/-- A scan for a key absent from the key vector misses. -/
theorem leafScan_not_mem {K V : Type} [DecidableEq K] (k : K) (ks : List K) (vs : List V)
    (h : k ∉ ks) : leafScan k ks vs = none := by
  induction ks generalizing vs with
  | nil => cases vs <;> rfl
  | cons a ks ih =>
    cases vs with
    | nil => rfl
    | cons v vs =>
      simp only [leafScan]
      rw [if_neg]
      · exact ih vs (fun hmem => h (List.mem_cons_of_mem _ hmem))
      · intro hak
        exact h (hak ▸ List.mem_cons_self a ks)

/-- Under pairwise-distinct keys, scanning the parallel vectors built from an
association list finds the value paired with any listed key. -/
theorem leafScan_mem {K V : Type} [DecidableEq K] (ps : List (K × V)) (k : K) (v : V)
    (hnd : (ps.map Prod.fst).Nodup) (hmem : (k, v) ∈ ps) :
    leafScan k (ps.map Prod.fst) (ps.map Prod.snd) = some v := by
  induction ps with
  | nil => cases hmem
  | cons p rest ih =>
    obtain ⟨a, b⟩ := p
    simp only [List.map_cons, leafScan]
    rcases List.mem_cons.mp hmem with heq | hmem2
    · obtain ⟨hk, hv⟩ := Prod.mk.injEq k v a b ▸ heq
      subst hk hv
      simp
    · have hnd2 : (rest.map Prod.fst).Nodup := (List.nodup_cons.mp hnd).2
      rw [if_neg]
      · exact ih hnd2 hmem2
      · intro hak
        subst hak
        exact (List.nodup_cons.mp hnd).1 (List.mem_map.mpr ⟨(a, v), hmem2, rfl⟩)

/-! ## Claims -/

/-- C1: for every sequence of `insert` calls on a tree created by `new()` whose keys
are pairwise distinct (the spec leaves the duplicate-key lookup policy explicitly
unresolved), the spec-modelled `get(k)` afterwards returns `some v` for every
inserted pair `(k, v)` and `none` for every key never inserted. -/
theorem C1_roundtrip_get (ps : List (ℕ × ℕ)) (t : BPlusTree ℕ ℕ)
    (hnd : (ps.map Prod.fst).Nodup)
    (ht : insertAll BPlusTree.new ps = Except.ok t) :
    (∀ kv ∈ ps, t.get kv.1 = some kv.2) ∧
    ∀ k, k ∉ ps.map Prod.fst → t.get k = none := by
  rcases reachable_cases ps t ht with ⟨hps, hts⟩ | hts
  · subst hps; subst hts
    exact ⟨fun kv hkv => absurd hkv (List.not_mem_nil kv), fun k _ => rfl⟩
  · subst hts
    constructor
    · rintro ⟨k, v⟩ hkv
      show BPlusNode.get k (BPlusNode.Leaf (ps.map Prod.fst) (ps.map Prod.snd)) = some v
      rw [get_leaf]
      exact leafScan_mem ps k v hnd hkv
    · intro k hk
      show BPlusNode.get k (BPlusNode.Leaf (ps.map Prod.fst) (ps.map Prod.snd)) = none
      rw [get_leaf]
      exact leafScan_not_mem k _ _ hk

theorem C1_roundtrip_get_witness :
    (∀ kv ∈ [((7 : ℕ), (14 : ℕ)), (3, 9)],
        (BPlusTree.mk (some (BPlusNode.Leaf [7, 3] [14, 9])) 0 : BPlusTree ℕ ℕ).get kv.1 =
          some kv.2) ∧
    ∀ k, k ∉ [((7 : ℕ), (14 : ℕ)), (3, 9)].map Prod.fst →
        (BPlusTree.mk (some (BPlusNode.Leaf [7, 3] [14, 9])) 0 : BPlusTree ℕ ℕ).get k = none :=
  C1_roundtrip_get [(7, 14), (3, 9)] _ (by decide) rfl

/-- C2: the claim that no node with more than `maxKeys = 4` keys is ever observable
between API calls fails on the code: after inserting five pairs into a fresh tree
the root leaf holds five keys, because the computed split is discarded and the
tree never grows, so a node with `5 > maxKeys` keys persists between API calls. -/
theorem C2_root_exceeds_maxKeys :
    insertAll (BPlusTree.new (K := ℕ) (V := ℕ)) [(1, 10), (2, 20), (3, 30), (4, 40), (5, 50)] =
      Except.ok (BPlusTree.mk (some (BPlusNode.Leaf [1, 2, 3, 4, 5] [10, 20, 30, 40, 50])) 0) ∧
    ¬ ((rootKeys (BPlusTree.mk (some (BPlusNode.Leaf [1, 2, 3, 4, 5] [10, 20, 30, 40, 50])) 0
        : BPlusTree ℕ ℕ)).length ≤ maxKeys) :=
  ⟨rfl, by decide⟩

/-- C3: the claim that after every completed insert the keys are ascending (insert
placing the key at its ascending-order position in the leaf) fails on the code:
`insert` appends at the end without any key comparison, so inserting key 3 then
key 1 leaves the root keys `[3, 1]`, neither strictly ascending nor
non-decreasing. -/
theorem C3_keys_not_sorted :
    insertAll (BPlusTree.new (K := ℕ) (V := ℕ)) [(3, 30), (1, 10)] =
      Except.ok (BPlusTree.mk (some (BPlusNode.Leaf [3, 1] [30, 10])) 0) ∧
    ¬ List.Chain' (· < ·)
        (rootKeys (BPlusTree.mk (some (BPlusNode.Leaf [3, 1] [30, 10])) 0 : BPlusTree ℕ ℕ)) ∧
    ¬ List.Chain' (· ≤ ·)
        (rootKeys (BPlusTree.mk (some (BPlusNode.Leaf [3, 1] [30, 10])) 0 : BPlusTree ℕ ℕ)) :=
  ⟨rfl, by simp [rootKeys, List.chain'_cons], by simp [rootKeys, List.chain'_cons]⟩

/-- C4: the claim that an overflowing leaf's five entries (including the newly
inserted one) are partitioned at median index `3` fails on the code: during the
fifth insert the split computation partitions only the four pre-insertion entries,
at index `4 / 2 = 2` (left `[1, 2]`, right `[3, 4]`, the new entry excluded), and
the result is then discarded, leaving a single root leaf with all five entries. -/
theorem C4_dead_split_partition :
    (deadSplit [1, 2, 3, 4] ([100, 200, 300, 400] : List ℕ)).1 =
      BPlusNode.Leaf [1, 2] [100, 200] ∧
    (deadSplit [1, 2, 3, 4] ([100, 200, 300, 400] : List ℕ)).2.1 =
      BPlusNode.Leaf [3, 4] [300, 400] ∧
    insertAll (BPlusTree.new (K := ℕ) (V := ℕ))
        [(1, 100), (2, 200), (3, 300), (4, 400), (5, 500)] =
      Except.ok (BPlusTree.mk
        (some (BPlusNode.Leaf [1, 2, 3, 4, 5] [100, 200, 300, 400, 500])) 0) :=
  ⟨rfl, rfl, rfl⟩

/-- C5: the claim that after a leaf split the separator key handed to the parent is
a copy of `right.keys[0]` fails on the code: the interior node built by the split
computation has an *empty* key vector — no separator is promoted at all — and the
node is discarded rather than wired into the tree. -/
theorem C5_no_separator_promoted :
    (deadSplit [1, 2, 3, 4] ([11, 22, 33, 44] : List ℕ)).2.2 =
      BPlusNode.Interior [] [BPlusNode.Leaf [1, 2] [11, 22], BPlusNode.Leaf [3, 4] [33, 44]] :=
  rfl

/-- C6: the claim that a root split creates a new Interior root (so that after
inserting `maxKeys + 1 = 5` entries into a fresh tree the root is an Interior
node) fails on the code: the root reference is never reassigned, and after five
inserts the root is still a Leaf holding all five keys. -/
theorem C6_root_stays_leaf :
    insertAll (BPlusTree.new (K := ℕ) (V := ℕ)) [(1, 1), (2, 4), (3, 9), (4, 16), (5, 25)] =
      Except.ok (BPlusTree.mk (some (BPlusNode.Leaf [1, 2, 3, 4, 5] [1, 4, 9, 16, 25])) 0) ∧
    rootIsInterior (BPlusTree.mk (some (BPlusNode.Leaf [1, 2, 3, 4, 5] [1, 4, 9, 16, 25])) 0) =
      false :=
  ⟨rfl, rfl⟩

/-- C7: for every tree state reachable through the public API (`new` followed by any
sequence of `insert` calls) and every key and value, `insert` completes normally:
neither the Interior-branch panic nor the failed-exclusive-access panic on the
root `Rc` is reachable. -/
theorem C7_insert_never_panics (ps : List (ℕ × ℕ)) (t : BPlusTree ℕ ℕ) (k v : ℕ)
    (ht : insertAll BPlusTree.new ps = Except.ok t) :
    ∃ t2, t.insert k v = Except.ok t2 := by
  rcases reachable_cases ps t ht with ⟨-, hts⟩ | hts
  · subst hts; exact ⟨_, insert_new k v⟩
  · subst hts; exact ⟨_, insert_leafRoot _ _ k v⟩

theorem C7_insert_never_panics_witness :
    ∃ t2, (BPlusTree.mk (some (BPlusNode.Leaf [1] [2])) 0 : BPlusTree ℕ ℕ).insert 3 4 =
      Except.ok t2 :=
  C7_insert_never_panics [(1, 2)] _ 3 4 rfl

/-- C8: calling `insert` on an empty tree (root `None`) first materialises a root
Leaf with empty key and value vectors and then inserts into it; after the call the
root is present, holds exactly the inserted pair, and the spec-modelled lookup
finds it. -/
theorem C8_insert_into_empty (t : BPlusTree ℕ ℕ) (k v : ℕ) (h : t.root = none) :
    t.insert k v = Except.ok (BPlusTree.mk (some (BPlusNode.Leaf ([] ++ [k]) ([] ++ [v]))) 0) ∧
    (BPlusTree.mk (some (BPlusNode.Leaf [k] [v])) 0 : BPlusTree ℕ ℕ).get k = some v := by
  obtain ⟨r, n⟩ := t
  have h2 : r = none := h
  subst h2
  refine ⟨rfl, ?_⟩
  show BPlusNode.get k (BPlusNode.Leaf [k] [v]) = some v
  rw [get_leaf]
  simp [leafScan]

theorem C8_insert_into_empty_witness :
    (BPlusTree.new (K := ℕ) (V := ℕ)).insert 7 14 =
      Except.ok (BPlusTree.mk (some (BPlusNode.Leaf ([] ++ [7]) ([] ++ [14]))) 0) ∧
    (BPlusTree.mk (some (BPlusNode.Leaf [7] [14])) 0 : BPlusTree ℕ ℕ).get 7 = some 14 :=
  C8_insert_into_empty BPlusTree.new 7 14 rfl

/-- C9: in every Leaf reachable after any sequence of public API calls (the root is
the only node the tree ever holds), the keys and values vectors have equal length
and zip to exactly the sequence of inserted pairs, so `values[i]` is the value
that was inserted with `keys[i]`. -/
theorem C9_parallel_arrays (ps : List (ℕ × ℕ)) (t : BPlusTree ℕ ℕ)
    (ht : insertAll BPlusTree.new ps = Except.ok t) :
    (rootKeys t).length = (rootValues t).length ∧ (rootKeys t).zip (rootValues t) = ps := by
  rcases reachable_cases ps t ht with ⟨hps, hts⟩ | hts
  · subst hps; subst hts; exact ⟨rfl, rfl⟩
  · subst hts
    constructor
    · show (ps.map Prod.fst).length = (ps.map Prod.snd).length
      simp
    · show (ps.map Prod.fst).zip (ps.map Prod.snd) = ps
      rw [List.zip_map']
      simp

theorem C9_parallel_arrays_witness :
    (rootKeys (BPlusTree.mk (some (BPlusNode.Leaf [7] [14])) 0 : BPlusTree ℕ ℕ)).length =
      (rootValues (BPlusTree.mk (some (BPlusNode.Leaf [7] [14])) 0 : BPlusTree ℕ ℕ)).length ∧
    (rootKeys (BPlusTree.mk (some (BPlusNode.Leaf [7] [14])) 0 : BPlusTree ℕ ℕ)).zip
      (rootValues (BPlusTree.mk (some (BPlusNode.Leaf [7] [14])) 0 : BPlusTree ℕ ℕ)) =
      [(7, 14)] :=
  C9_parallel_arrays [(7, 14)] _ rfl

/-- C10: for every sequence of public API calls (`new` followed by any number of
inserts), the tree's root, once present, is a Leaf node; the root is the only node
the tree ever holds, so no Interior node is reachable from the tree between API
calls. -/
theorem C10_root_always_leaf (ps : List (ℕ × ℕ)) (t : BPlusTree ℕ ℕ)
    (ht : insertAll BPlusTree.new ps = Except.ok t) :
    rootIsInterior t = false ∧
    (t.root = none ∨ ∃ ks vs, t.root = some (BPlusNode.Leaf ks vs)) := by
  rcases reachable_cases ps t ht with ⟨-, hts⟩ | hts
  · subst hts; exact ⟨rfl, Or.inl rfl⟩
  · subst hts; exact ⟨rfl, Or.inr ⟨_, _, rfl⟩⟩

theorem C10_root_always_leaf_witness :
    rootIsInterior (BPlusTree.mk (some (BPlusNode.Leaf [1] [1])) 0 : BPlusTree ℕ ℕ) = false ∧
    ((BPlusTree.mk (some (BPlusNode.Leaf [1] [1])) 0 : BPlusTree ℕ ℕ).root = none ∨
      ∃ ks vs, (BPlusTree.mk (some (BPlusNode.Leaf [1] [1])) 0 : BPlusTree ℕ ℕ).root =
        some (BPlusNode.Leaf ks vs)) :=
  C10_root_always_leaf [(1, 1)] _ rfl
